import Mathlib

/-!
# Verification of `korean_polisher/train/transformer.py`

Shallow embedding of the mask construction, masked loss/accuracy, greedy
decoding loop, evaluation routine and demo-mode processing of the
Transformer implementation, together with proofs of the specification
claims about them.

Conventions of the embedding:
* token ids are `ℕ` (the reserved ids are 0 = pad, 2 = start, 3 = end);
* tensor entries are `ℚ` (the float values appearing in the claims —
  mask entries 0/1, argmax comparisons, metric averages — are exact in
  binary floating point, so `ℚ` is faithful for them);
* a rank-2 id tensor is a `List (List ℕ)` (batch of rows);
* the per-position cross-entropy kernel of
  `tf.keras.losses.SparseCategoricalCrossentropy(reduction='none')` is an
  external math-runtime primitive involving transcendental functions; it is
  modelled as an explicit parameter `ce : ℕ → List ℚ → ℚ` applied
  elementwise, which is exactly how `loss_function` uses it.
-/

namespace KoreanPolisher

/-- Mask entry for one token id: `tf.cast(tf.math.equal(seq, 0), float)` —
1 where the id is the pad id 0, else 0.  From `create_padding_mask`. -/
def padEntry (t : ℕ) : ℚ := if t = 0 then 1 else 0

/-- `create_padding_mask(seq)`: elementwise pad test, then
`seq[:, tf.newaxis, tf.newaxis, :]` giving shape (batch, 1, 1, seq_len). -/
def create_padding_mask (seq : List (List ℕ)) : List (List (List (List ℚ))) :=
  seq.map (fun row => [[row.map padEntry]])

/-- Entry (i, j) of `tf.linalg.band_part(tf.ones((n,n)), -1, 0)`:
the lower triangle including the diagonal. -/
def bandPartLower (i j : ℕ) : ℚ := if j ≤ i then 1 else 0

/-- `create_look_ahead_mask(size)`: `1 - tf.linalg.band_part(tf.ones((size,size)), -1, 0)`,
an (n, n) matrix. -/
def create_look_ahead_mask (n : ℕ) : List (List ℚ) :=
  (List.range n).map (fun i => (List.range n).map (fun j => 1 - bandPartLower i j))

/-- Broadcast `tf.maximum` of a (…, 1, seq) padding-mask row against an
(seq, seq) look-ahead mask: entry (i, j) = max(lookAhead i j, pad j). -/
def broadcastMax (pad : List ℚ) (la : List (List ℚ)) : List (List ℚ) :=
  la.map (fun larow => larow.zipWith max pad)

/-- `create_masks(inp, tar)`: encoder padding mask over `inp`, the combined
decoder self-attention mask `tf.maximum(create_padding_mask(tar), look_ahead)`
over `tar`, and the decoder (cross-attention) padding mask over `inp`. -/
def create_masks (inp tar : List (List ℕ)) :
    List (List (List (List ℚ))) × List (List (List (List ℚ))) × List (List (List (List ℚ))) :=
  let enc_padding_mask := create_padding_mask inp
  let dec_padding_mask := create_padding_mask inp
  let combined_mask := tar.map (fun row =>
    [broadcastMax (row.map padEntry) (create_look_ahead_mask row.length)])
  (enc_padding_mask, combined_mask, dec_padding_mask)

/-! ## Masked loss (`loss_function`) -/

/-- One entry of `tf.cast(tf.math.logical_not(tf.math.equal(real, 0)), loss_dtype)`:
1 where the target id is not the pad id 0, else 0.  From `loss_function`. -/
def lossMaskEntry (t : ℕ) : ℚ := if t = 0 then 0 else 1

/-- The mask tensor of `loss_function`: `logical_not(equal(real, 0))` cast to
the loss dtype, elementwise over the target batch. -/
def lossMask (real : List (List ℕ)) : List (List ℚ) :=
  real.map (fun row => row.map lossMaskEntry)

/-- `loss_ = loss_object(real, pred)` with `reduction='none'`: the external
cross-entropy kernel `ce` applied at each (row, position) pair of the target
batch against the matching logit vector of `pred`. -/
def elementwiseLoss (ce : ℕ → List ℚ → ℚ) (real : List (List ℕ))
    (pred : List (List (List ℚ))) : List (List ℚ) :=
  (real.zip pred).map (fun rp => rp.1.zip rp.2 |>.map (fun lp => ce lp.1 lp.2))

/-- Elementwise product of two rank-2 tensors (`loss_ *= mask`). -/
def mulElems (a b : List (List ℚ)) : List (List ℚ) :=
  (a.zip b).map (fun rp => rp.1.zipWith (· * ·) rp.2)

/-- `tf.reduce_sum` of a rank-2 tensor. -/
def sum2 (a : List (List ℚ)) : ℚ := (a.map List.sum).sum

/-- `loss_function(real, pred)`: per-token cross-entropy, multiplied by the
not-pad mask, then `reduce_sum(loss_) / reduce_sum(mask)`.  (Rational division
by zero yields 0 in Lean; the denominator is characterised separately —
in TensorFlow floats a 0/0 here is NaN.) -/
def loss_function (ce : ℕ → List ℚ → ℚ) (real : List (List ℕ))
    (pred : List (List (List ℚ))) : ℚ :=
  sum2 (mulElems (elementwiseLoss ce real pred) (lossMask real)) / sum2 (lossMask real)

/-! ## Accuracy metric (`tf.keras.metrics.SparseCategoricalAccuracy`) and
`tf.keras.metrics.Mean` -/

/-- `tf.argmax` over the last axis of a logit vector: index of the maximum,
first occurrence winning ties. -/
def argmaxAux (best : ℕ) (bv : ℚ) (i : ℕ) : List ℚ → ℕ
  | [] => best
  | x :: xs => if bv < x then argmaxAux i x (i + 1) xs else argmaxAux best bv (i + 1) xs

/-- `tf.argmax` of a logit vector (0 on an empty vector). -/
def argmax : List ℚ → ℕ
  | [] => 0
  | x :: xs => argmaxAux 0 x 1 xs

/-- Per-position match values of `SparseCategoricalAccuracy.update_state(real, pred)`:
1.0 where `argmax(pred) == real`, else 0.0, flattened over the whole batch. -/
def scaMatchValues (real : List (List ℕ)) (pred : List (List (List ℚ))) : List ℚ :=
  ((real.zip pred).map (fun rp =>
    rp.1.zip rp.2 |>.map (fun lp => if argmax lp.2 = lp.1 then (1 : ℚ) else 0))).flatten

/-- State of a streaming mean metric (`Mean` and the mean aggregation inside
`SparseCategoricalAccuracy`): running total and running count. -/
structure MeanState where
  total : ℚ
  count : ℚ
deriving Repr, DecidableEq

/-- A freshly constructed / reset metric. -/
def MeanState.init : MeanState := ⟨0, 0⟩

/-- `Mean.update_state(v)`. -/
def MeanState.update (st : MeanState) (v : ℚ) : MeanState :=
  ⟨st.total + v, st.count + 1⟩

/-- `metric.result()`: the running mean (0/0 when never updated). -/
def MeanState.result (st : MeanState) : ℚ := st.total / st.count

/-- `SparseCategoricalAccuracy.update_state(real, pred)`: folds every
per-position match value (pad positions included — the metric is applied
with no mask and no sample weight) into the running mean. -/
def scaUpdate (st : MeanState) (real : List (List ℕ)) (pred : List (List (List ℚ))) :
    MeanState :=
  ⟨st.total + (scaMatchValues real pred).sum, st.count + (scaMatchValues real pred).length⟩

/-! ## Training step and evaluation -/

/-- The module-level metric trackers `train_loss` and `train_accuracy`
(`tf.keras.metrics.Mean` / `SparseCategoricalAccuracy`), made explicit as a
state record threaded through `train_step` and `evaluate`. -/
structure Globals where
  train_loss : MeanState
  train_accuracy : MeanState
deriving Repr, DecidableEq

/-- A model forward pass `self(inp, tar, training, …)` abstracted over its
learned weights: maps the input batch, the teacher-forced decoder input and
the three masks to the prediction logits. -/
def Model : Type :=
  List (List ℕ) → List (List ℕ) →
    List (List (List (List ℚ))) × List (List (List (List ℚ))) × List (List (List (List ℚ))) →
    List (List (List ℚ))

/-- The metric-updating tail of `train_step(inp, tar)`: form
`tar_inp = tar[:, :-1]` and `tar_real = tar[:, 1:]`, build masks, run the
forward pass, compute the masked loss, and update the module-level
`train_loss` and `train_accuracy` trackers.  (The gradient/optimizer update
mutates only the weights hidden inside `model` and is outside the claims.) -/
def train_step (model : Model) (ce : ℕ → List ℚ → ℚ) (g : Globals)
    (inp tar : List (List ℕ)) : Globals :=
  let tar_inp := tar.map List.dropLast
  let tar_real := tar.map (List.drop 1)
  let masks := create_masks inp tar_inp
  let predictions := model inp tar_inp masks
  let loss := loss_function ce tar_real predictions
  ⟨g.train_loss.update loss, scaUpdate g.train_accuracy tar_real predictions⟩

/-- `split_batch(iterable, n)`: slices `iterable[ndx:ndx+n]` for
`ndx = 0, n, 2n, …` (chunks of size `n`, final chunk possibly smaller). -/
def split_batch (n : ℕ) : List α → List (List α)
  | [] => []
  | x :: xs => (x :: xs.take (n - 1)) :: split_batch n (xs.drop (n - 1))
termination_by l => l.length
decreasing_by simp only [List.length_cons, List.length_drop]; omega

/-- The per-batch body of `evaluate`: teacher-forced forward pass, masked
loss, and updates of the *local* `test_loss` and `test_accuracy` metrics. -/
def evaluateBatch (model : Model) (ce : ℕ → List ℚ → ℚ)
    (st : MeanState × MeanState) (inp tar : List (List ℕ)) :
    MeanState × MeanState :=
  let tar_inp := tar.map List.dropLast
  let tar_real := tar.map (List.drop 1)
  let masks := create_masks inp tar_inp
  let predictions := model inp tar_inp masks
  let loss := loss_function ce tar_real predictions
  (st.1.update loss, scaUpdate st.2 tar_real predictions)

/-- `Transformer.evaluate(inp, tar)`: split both arrays into batches of
`BATCH_SIZE`, construct and reset local `test_loss` / `test_accuracy`
metrics, fold every batch into them, and return their results.  The
module-level trackers `g` are passed through untouched, exactly as the
source body never mentions them. -/
def evaluate (model : Model) (ce : ℕ → List ℚ → ℚ) (batchSize : ℕ) (g : Globals)
    (inp tar : List (List ℕ)) : (ℚ × ℚ) × Globals :=
  let inp_batch := split_batch batchSize inp
  let tar_batch := split_batch batchSize tar
  let final := (inp_batch.zip tar_batch).foldl
    (fun st p => evaluateBatch model ce st p.1 p.2)
    (MeanState.init, MeanState.init)
  ((final.1.result, final.2.result), g)

/-! ## Greedy decoding (`Transformer.predict`) -/

/-- The loop body of `predict`, parameterised by `step`, the composite of
mask construction, the no-dropout forward pass on the fixed encoder input
and `argmax` over the final position's logits: `step output` is the id the
model selects after seeing the partial decoder sequence `output`.

State: remaining iterations of `for i in range(MAX_LENGTH)`, the growing
decoder tensor `output`, and the python list `result`.  Returns the ids
handed to `self.tk.decode` together with the number of forward passes
performed.  When the selected id is the end token 3 the loop returns
`result` before the `result.append`, so 3 is never appended; when the
iteration budget runs out the accumulated `result` is returned. -/
def predictLoop (step : List ℕ → ℕ) : ℕ → List ℕ → List ℕ → List ℕ × ℕ
  | 0, _, result => (result, 0)
  | n + 1, output, result =>
    let predicted_id := step output
    let output' := output ++ [predicted_id]
    if predicted_id = 3 then (result, 1)
    else
      let r := predictLoop step n output' (result ++ [predicted_id])
      (r.1, r.2 + 1)

/-- The id sequence `Transformer.predict` passes to `self.tk.decode`, and the
number of forward-pass iterations it takes: the decoder sequence and the
result list both start as `[2]` (the start token), then the loop runs for at
most `maxLength = MAX_LENGTH` iterations. -/
def predictIds (step : List ℕ → ℕ) (maxLength : ℕ) : List ℕ × ℕ :=
  predictLoop step maxLength [2] [2]

/-- `Transformer.predict` itself, with the external tokenizer's `decode`
as a parameter: the decoded text of the accumulated ids. -/
def predictText (step : List ℕ → ℕ) (decode : List ℕ → String) (maxLength : ℕ) :
    String :=
  decode (predictIds step maxLength).1

/-! ## Demo mode (`Transformer.demo`) -/

/-- One predict call in demo mode: either the predicted text or the raised
exception's message. -/
def PredictResult : Type := String → Except String String

/-- The loop of `Transformer.demo` over the lines of `demo.txt`, returning
the sequence of lines printed to standard output.  The whole loop sits
inside a single `try`: a non-empty line is printed, then its prediction; if
prediction raises, control leaves the loop for the `except` clause, which
prints `"demo error"` and the exception and ends the function — the
remaining lines are never visited. -/
def demoLines (predict : PredictResult) : List String → List String
  | [] => []
  | i :: rest =>
    if i.length = 0 then demoLines predict rest
    else
      match predict i with
      | .ok t => i :: t :: demoLines predict rest
      | .error e => [i, "demo error", e]

/-! ## Decoder-layer dataflow (`DecoderLayer.call`) -/

/-- Symbolic tensor expressions for the dataflow inside a decoder layer.
`mhaOut idx v k q mask` / `mhaWeights idx v k q mask` are the two results of
`self.mha⟨idx⟩(v, k, q, mask)` in `MultiHeadAttention.call`'s positional
argument order `(v, k, q, mask)`. -/
inductive TExpr where
  | var : ℕ → TExpr
  | mhaOut : ℕ → TExpr → TExpr → TExpr → TExpr → TExpr
  | mhaWeights : ℕ → TExpr → TExpr → TExpr → TExpr → TExpr
  | dropout : ℕ → TExpr → TExpr
  | layernorm : ℕ → TExpr → TExpr
  | add : TExpr → TExpr → TExpr
  | ffn : TExpr → TExpr
deriving Repr, DecidableEq

/-- `DecoderLayer.call(x, enc_output, training, look_ahead_mask,
padding_mask)` as a dataflow term: returns `(out3, attn_weights_block1,
attn_weights_block2)`.  Block 1 is `self.mha1(x, x, x, look_ahead_mask)`;
block 2 is `self.mha2(enc_output, enc_output, out1, padding_mask)`. -/
def decoderLayerCall (x enc_output look_ahead_mask padding_mask : TExpr) :
    TExpr × TExpr × TExpr :=
  let attn1 := TExpr.mhaOut 1 x x x look_ahead_mask
  let attn_weights_block1 := TExpr.mhaWeights 1 x x x look_ahead_mask
  let out1 := TExpr.layernorm 1 (TExpr.add (TExpr.dropout 1 attn1) x)
  let attn2 := TExpr.mhaOut 2 enc_output enc_output out1 padding_mask
  let attn_weights_block2 := TExpr.mhaWeights 2 enc_output enc_output out1 padding_mask
  let out2 := TExpr.layernorm 2 (TExpr.add (TExpr.dropout 2 attn2) out1)
  let ffn_output := TExpr.dropout 3 (TExpr.ffn out2)
  let out3 := TExpr.layernorm 3 (TExpr.add ffn_output out2)
  (out3, attn_weights_block1, attn_weights_block2)

/-- Shape semantics of the dataflow terms, transcribed from the tensor
shapes `MultiHeadAttention.call` produces: given an environment assigning
shapes to the free variables and the head count, `mhaOut` requires Q/K/V to
share the batch and model width, K and V to share their sequence length, and
the width to split evenly into `heads`; it returns `(batch, seq_q, d_model)`
(the shape after the final reshape/dense), while `mhaWeights` returns
`(batch, heads, seq_q, seq_k)`.  `dropout`, `layernorm` and `ffn` preserve
shape; `add` requires equal shapes. -/
def shapeSem (env : ℕ → Option (List ℕ)) (heads : ℕ) : TExpr → Option (List ℕ)
  | .var s => env s
  | .mhaOut _ v k q _ => do
    let sv ← shapeSem env heads v
    let sk ← shapeSem env heads k
    let sq ← shapeSem env heads q
    match sv, sk, sq with
    | [bv, nv, dv], [bk, nk, dk], [bq, nq, dq] =>
      if bv = bk ∧ bk = bq ∧ dv = dk ∧ dk = dq ∧ nv = nk ∧ heads ∣ dq ∧ 0 < heads then
        some [bq, nq, dq]
      else none
    | _, _, _ => none
  | .mhaWeights _ v k q _ => do
    let sv ← shapeSem env heads v
    let sk ← shapeSem env heads k
    let sq ← shapeSem env heads q
    match sv, sk, sq with
    | [bv, nv, dv], [bk, nk, dk], [bq, nq, dq] =>
      if bv = bk ∧ bk = bq ∧ dv = dk ∧ dk = dq ∧ nv = nk ∧ heads ∣ dq ∧ 0 < heads then
        some [bq, heads, nq, nk]
      else none
    | _, _, _ => none
  | .dropout _ t => shapeSem env heads t
  | .layernorm _ t => shapeSem env heads t
  | .add a b => do
    let sa ← shapeSem env heads a
    let sb ← shapeSem env heads b
    if sa = sb then some sa else none
  | .ffn t => shapeSem env heads t

/-! ## Concrete instances used in witnesses and counterexamples -/

/-- A concrete instantiation of the external cross-entropy kernel: the
logit at the label index.  (The claims about `loss_function` that depend on
the kernel at all only need some kernel that distinguishes positions.) -/
def ceProbe (label : ℕ) (logits : List ℚ) : ℚ := logits.getD label 0

/-- Concrete prediction logits for a one-row, two-position target batch
over an 8-id vocabulary: position 0 has its argmax at id 5, position 1 at
id 7. -/
def predProbe : List (List (List ℚ)) :=
  [[[0, 0, 0, 0, 0, 9, 0, 0], [0, 0, 0, 0, 0, 0, 0, 9]]]

/-- A concrete demo-mode predictor: raises on the line "a", succeeds on
every other line. -/
def demoPredictProbe : PredictResult :=
  fun s => if s = "a" then Except.error "boom" else Except.ok (String.append "ok:" s)

/-- Modelled from the spec: the accuracy the specification describes —
the fraction of non-pad target positions (label ≠ 0) whose argmax
prediction matches the label, pad positions contributing to neither
numerator nor denominator.  Stated from the words of the spec for
comparison against the metric the code actually updates. -/
def specMaskedAccuracy (real : List (List ℕ)) (pred : List (List (List ℚ))) : ℚ :=
  let flat := (((real.zip pred).map (fun rp => rp.1.zip rp.2)).flatten).filter
    (fun lp => lp.1 != 0)
  ((flat.countP (fun lp => decide (argmax lp.2 = lp.1)) : ℕ) : ℚ) / ((flat.length : ℕ) : ℚ)

/-! ## Helper lemmas -/

lemma sum_map_range (f : ℕ → ℚ) (n : ℕ) :
    ((List.range n).map f).sum = ∑ i in Finset.range n, f i := by
  induction n with
  | zero => simp
  | succ n ih => rw [List.range_succ]; simp [ih, Finset.sum_range_succ]

lemma band_row_sum (i n : ℕ) :
    ((List.range n).map (fun j => 1 - bandPartLower i j)).sum = ((n - (i + 1) : ℕ) : ℚ) := by
  induction n with
  | zero => simp
  | succ n ih =>
    rw [List.range_succ, List.map_append, List.sum_append, ih]
    simp only [List.map_cons, List.map_nil, List.sum_cons, List.sum_nil, bandPartLower]
    by_cases h : n ≤ i
    · have he : (n - (i + 1) : ℕ) = ((n + 1) - (i + 1) : ℕ) := by omega
      simp [h, ← he]
    · have he : ((n + 1) - (i + 1) : ℕ) = (n - (i + 1) : ℕ) + 1 := by omega
      rw [he]
      push_cast
      simp [h]

lemma getD_map_range (g : ℕ → α) (n i : ℕ) (hi : i < n) (d : α) :
    ((List.range n).map g).getD i d = g i := by
  rw [List.getD_eq_getElem?_getD, List.getElem?_map, List.getElem?_range hi]
  simp

lemma look_ahead_entry (n i j : ℕ) (hi : i < n) (hj : j < n) :
    ((create_look_ahead_mask n).getD i []).getD j 0 = if i < j then 1 else 0 := by
  unfold create_look_ahead_mask
  rw [getD_map_range _ n i hi, getD_map_range _ n j hj]
  unfold bandPartLower
  by_cases h : j ≤ i
  · have h2 : ¬ i < j := by omega
    simp [h, h2]
  · have h2 : i < j := by omega
    simp [h, h2]

lemma look_ahead_length (n : ℕ) : (create_look_ahead_mask n).length = n := by
  simp [create_look_ahead_mask]

lemma look_ahead_row_length (n i : ℕ) (hi : i < n) :
    ((create_look_ahead_mask n).getD i []).length = n := by
  unfold create_look_ahead_mask
  rw [getD_map_range _ n i hi]
  simp

lemma sum2_map_range (g : ℕ → List ℚ) (n : ℕ) :
    sum2 ((List.range n).map g) = ∑ i in Finset.range n, (g i).sum := by
  unfold sum2
  rw [List.map_map, sum_map_range]
  rfl

/-- C7: the look-ahead mask of positive size n is the strict
upper-triangular (n, n) matrix of ones — entry (i, j) is 1 exactly when
`j > i`, 0 otherwise — and it contains exactly `n * (n - 1) / 2` ones. -/
theorem look_ahead_mask_strict_upper_triangular (n : ℕ) (hn : 0 < n) :
    (create_look_ahead_mask n).length = n ∧
    (∀ i, i < n → ((create_look_ahead_mask n).getD i []).length = n) ∧
    (∀ i j, i < n → j < n →
      ((create_look_ahead_mask n).getD i []).getD j 0 = if i < j then 1 else 0) ∧
    sum2 (create_look_ahead_mask n) = (n : ℚ) * ((n : ℚ) - 1) / 2 := by
  refine ⟨look_ahead_length n, fun i hi => look_ahead_row_length n i hi,
    fun i j hi hj => look_ahead_entry n i j hi hj, ?_⟩
  have h1 : sum2 (create_look_ahead_mask n)
      = ∑ i in Finset.range n, ((n - (i + 1) : ℕ) : ℚ) := by
    rw [show create_look_ahead_mask n
        = (List.range n).map (fun i => (List.range n).map (fun j => 1 - bandPartLower i j))
      from rfl]
    rw [sum2_map_range]
    exact Finset.sum_congr rfl (fun i _ => band_row_sum i n)
  have h2 : ∑ i in Finset.range n, ((n - (i + 1) : ℕ) : ℚ)
      = ∑ i in Finset.range n, (i : ℚ) := by
    have hr := Finset.sum_range_reflect (fun j => ((j : ℕ) : ℚ)) n
    refine Eq.trans ?_ hr
    refine Finset.sum_congr rfl (fun i _ => ?_)
    have : n - 1 - i = n - (i + 1) := by omega
    rw [this]
  have h3 : (∑ i in Finset.range n, (i : ℚ)) * 2 = (n : ℚ) * ((n : ℚ) - 1) := by
    have hg := Finset.sum_range_id_mul_two n
    have hc : (((∑ i in Finset.range n, i) * 2 : ℕ) : ℚ) = ((n * (n - 1) : ℕ) : ℚ) := by
      exact_mod_cast congrArg (Nat.cast : ℕ → ℚ) hg
    have h1n : (1 : ℕ) ≤ n := hn
    push_cast [Nat.cast_sub h1n] at hc
    linarith
  rw [h1, h2]
  linarith

/-- Witness for C7 at the concrete size n = 4. -/
theorem look_ahead_mask_strict_upper_triangular_witness :
    0 < 4 ∧
    ((create_look_ahead_mask 4).length = 4 ∧
    (∀ i, i < 4 → ((create_look_ahead_mask 4).getD i []).length = 4) ∧
    (∀ i j, i < 4 → j < 4 →
      ((create_look_ahead_mask 4).getD i []).getD j 0 = if i < j then 1 else 0) ∧
    sum2 (create_look_ahead_mask 4) = (4 : ℚ) * ((4 : ℚ) - 1) / 2) :=
  ⟨by decide, look_ahead_mask_strict_upper_triangular 4 (by decide)⟩

lemma getD_map (f : α → β) (l : List α) (i : ℕ) (hi : i < l.length) (d : β) (d' : α) :
    (l.map f).getD i d = f (l.getD i d') := by
  rw [List.getD_eq_getElem?_getD (l.map f), List.getD_eq_getElem?_getD l,
    List.getElem?_map, List.getElem?_eq_getElem hi]
  simp

lemma getD_zipWith (f : α → β → γ) (a : List α) (b : List β) (j : ℕ)
    (hja : j < a.length) (hjb : j < b.length) (d : γ) (da : α) (db : β) :
    (a.zipWith f b).getD j d = f (a.getD j da) (b.getD j db) := by
  induction a generalizing b j with
  | nil => simp at hja
  | cons x xs ih =>
    cases b with
    | nil => simp at hjb
    | cons y ys =>
      cases j with
      | zero => simp
      | succ j =>
        simp only [List.zipWith_cons_cons, List.getD_cons_succ]
        exact ih ys j (by simpa using hja) (by simpa using hjb)

/-- C6: `create_masks` returns an encoder padding mask and a decoder
cross-attention padding mask, both equal to the padding mask of the input
batch — shaped (batch, 1, 1, seq) with entry 1 exactly where the token id
is 0 — together with the combined decoder self-attention mask, whose
(i, j) entry is the maximum of the decoder input's padding-mask value at j
and the look-ahead mask value at (i, j).  On the concrete input batch
`[[4,5,6,0,0]]` the encoder padding mask is `[[[[0,0,0,1,1]]]]`. -/
theorem create_masks_spec (inp tar : List (List ℕ)) :
    (create_masks inp tar).1 = create_padding_mask inp ∧
    (create_masks inp tar).2.2 = create_padding_mask inp ∧
    (create_padding_mask inp).length = inp.length ∧
    (∀ b, b < inp.length →
      ((create_padding_mask inp).getD b []).length = 1 ∧
      (((create_padding_mask inp).getD b []).getD 0 []).length = 1 ∧
      ((((create_padding_mask inp).getD b []).getD 0 []).getD 0 []).length
        = (inp.getD b []).length) ∧
    (∀ b j, b < inp.length → j < (inp.getD b []).length →
      ((((create_padding_mask inp).getD b []).getD 0 []).getD 0 []).getD j 0
        = if (inp.getD b []).getD j 0 = 0 then 1 else 0) ∧
    (∀ b i j, b < tar.length → i < (tar.getD b []).length → j < (tar.getD b []).length →
      ((((create_masks inp tar).2.1.getD b []).getD 0 []).getD i []).getD j 0
        = max (if (tar.getD b []).getD j 0 = 0 then 1 else 0)
            (((create_look_ahead_mask (tar.getD b []).length).getD i []).getD j 0)) ∧
    (inp = [[4, 5, 6, 0, 0]] →
      (create_masks inp tar).1 = [[[[0, 0, 0, 1, 1]]]]) := by
  refine ⟨rfl, rfl, by simp [create_padding_mask], ?_, ?_, ?_, ?_⟩
  · intro b hb
    unfold create_padding_mask
    rw [getD_map (fun row => [[row.map padEntry]]) inp b hb [] []]
    simp
  · intro b j hb hj
    unfold create_padding_mask
    rw [getD_map (fun row => [[row.map padEntry]]) inp b hb [] []]
    simp only [List.getD_cons_zero]
    rw [getD_map padEntry (inp.getD b []) j hj 0 0]
    rfl
  · intro b i j hb hi hj
    show ((((tar.map (fun row =>
        [broadcastMax (row.map padEntry) (create_look_ahead_mask row.length)])).getD b
        []).getD 0 []).getD i []).getD j 0 = _
    rw [getD_map _ tar b hb [] []]
    simp only [List.getD_cons_zero]
    unfold broadcastMax
    rw [getD_map _ (create_look_ahead_mask (tar.getD b []).length) i
      (by rw [look_ahead_length]; exact hi) [] []]
    rw [getD_zipWith max ((create_look_ahead_mask (tar.getD b []).length).getD i [])
      ((tar.getD b []).map padEntry) j
      (by rw [look_ahead_row_length _ i hi]; exact hj) (by simpa using hj) 0 0 0]
    rw [getD_map padEntry (tar.getD b []) j hj 0 0]
    rw [max_comm]
    rfl
  · intro h
    subst h
    rfl

/-- Witness for C6 at a concrete input/target pair. -/
theorem create_masks_spec_witness :
    ((create_masks [[4, 5, 6, 0, 0]] [[2, 7, 0]]).1
      = create_padding_mask [[4, 5, 6, 0, 0]] ∧
    (create_masks [[4, 5, 6, 0, 0]] [[2, 7, 0]]).2.2
      = create_padding_mask [[4, 5, 6, 0, 0]] ∧
    (create_padding_mask [[4, 5, 6, 0, 0]]).length = ([[4, 5, 6, 0, 0]] : List (List ℕ)).length ∧
    (∀ b, b < ([[4, 5, 6, 0, 0]] : List (List ℕ)).length →
      ((create_padding_mask [[4, 5, 6, 0, 0]]).getD b []).length = 1 ∧
      (((create_padding_mask [[4, 5, 6, 0, 0]]).getD b []).getD 0 []).length = 1 ∧
      ((((create_padding_mask [[4, 5, 6, 0, 0]]).getD b []).getD 0 []).getD 0 []).length
        = (([[4, 5, 6, 0, 0]] : List (List ℕ)).getD b []).length) ∧
    (∀ b j, b < ([[4, 5, 6, 0, 0]] : List (List ℕ)).length →
        j < (([[4, 5, 6, 0, 0]] : List (List ℕ)).getD b []).length →
      ((((create_padding_mask [[4, 5, 6, 0, 0]]).getD b []).getD 0 []).getD 0 []).getD j 0
        = if (([[4, 5, 6, 0, 0]] : List (List ℕ)).getD b []).getD j 0 = 0 then 1 else 0) ∧
    (∀ b i j, b < ([[2, 7, 0]] : List (List ℕ)).length →
        i < (([[2, 7, 0]] : List (List ℕ)).getD b []).length →
        j < (([[2, 7, 0]] : List (List ℕ)).getD b []).length →
      ((((create_masks [[4, 5, 6, 0, 0]] [[2, 7, 0]]).2.1.getD b []).getD 0 []).getD i []).getD j 0
        = max (if (([[2, 7, 0]] : List (List ℕ)).getD b []).getD j 0 = 0 then 1 else 0)
            (((create_look_ahead_mask (([[2, 7, 0]] : List (List ℕ)).getD b []).length).getD i
              []).getD j 0)) ∧
    (([[4, 5, 6, 0, 0]] : List (List ℕ)) = [[4, 5, 6, 0, 0]] →
      (create_masks [[4, 5, 6, 0, 0]] [[2, 7, 0]]).1 = [[[[0, 0, 0, 1, 1]]]])) :=
  create_masks_spec [[4, 5, 6, 0, 0]] [[2, 7, 0]]

lemma predictLoop_spec (step : List ℕ → ℕ) :
    ∀ (n : ℕ) (output result : List ℕ),
      (predictLoop step n output result).2 ≤ n ∧
      (3 ∉ result → 3 ∉ (predictLoop step n output result).1) := by
  intro n
  induction n with
  | zero => intro output result; exact ⟨Nat.le_refl 0, fun h => h⟩
  | succ n ih =>
    intro output result
    have hunf : predictLoop step (n + 1) output result
        = if step output = 3 then (result, 1)
          else ((predictLoop step n (output ++ [step output]) (result ++ [step output])).1,
            (predictLoop step n (output ++ [step output]) (result ++ [step output])).2 + 1) :=
      rfl
    by_cases h : step output = 3
    · rw [hunf, if_pos h]
      exact ⟨by omega, fun hr => hr⟩
    · rw [hunf, if_neg h]
      refine ⟨by have := (ih (output ++ [step output]) (result ++ [step output])).1; omega, ?_⟩
      intro hr
      refine (ih (output ++ [step output]) (result ++ [step output])).2 ?_
      intro hmem
      rcases List.mem_append.mp hmem with h1 | h2
      · exact hr h1
      · exact h ((List.mem_singleton.mp h2).symm)

/-- C4: the greedy decoding loop of `Transformer.predict` performs at most
`maxLength = MAX_LENGTH` forward-pass iterations, and the id sequence it
hands to the tokenizer decode never contains the end-token id 3 — whether
it stops early on the end token or exhausts the iteration bound. -/
theorem predict_bounded_and_no_end_token (step : List ℕ → ℕ) (maxLength : ℕ) :
    (predictIds step maxLength).2 ≤ maxLength ∧
    3 ∉ (predictIds step maxLength).1 := by
  have h := predictLoop_spec step maxLength [2] [2]
  exact ⟨h.1, h.2 (by decide)⟩

/-- C5: with an iteration budget of 1, a model whose first greedy step
selects the end-token id 3 leaves only the start token in the accumulated
sequence, and decoding it (a tokenizer for which the bare start token
decodes to the empty string) returns the empty string. -/
theorem predict_immediate_end_is_empty (step : List ℕ → ℕ)
    (decode : List ℕ → String) (hstep : step [2] = 3) (hdec : decode [2] = "") :
    predictIds step 1 = ([2], 1) ∧ predictText step decode 1 = "" := by
  constructor
  · unfold predictIds predictLoop
    simp [hstep]
  · unfold predictText predictIds predictLoop
    simp [hstep, hdec]

/-- Witness for C5 at a concrete model and tokenizer. -/
theorem predict_immediate_end_is_empty_witness :
    predictIds (fun _ => 3) 1 = ([2], 1) ∧
    predictText (fun _ => 3) (fun l => if l = [2] then "" else "x") 1 = "" :=
  predict_immediate_end_is_empty (fun _ => 3) (fun l => if l = [2] then "" else "x")
    rfl (by simp)

/-- Counterexample to C3 as stated: with a predictor that raises on the
non-empty line "a" and succeeds on "b", processing `["a", "b"]` prints the
failing line, the generic message and the error, and never reaches "b" —
the failure on one line does prevent the remaining lines from being
predicted and printed. -/
theorem demo_error_skips_rest_counterexample :
    demoLines demoPredictProbe ["a", "b"] = ["a", "demo error", "boom"] ∧
    demoPredictProbe "b" = Except.ok "ok:b" ∧
    "ok:b" ∉ demoLines demoPredictProbe ["a", "b"] := by
  refine ⟨rfl, rfl, ?_⟩
  decide

/-- C3 amended: a read/predict failure in demo mode is caught by the
single try/except around the whole loop — the failing line, the generic
message "demo error" and the error are printed and the function returns
instead of crashing — but processing does **not** continue: the lines after
the failing one are never visited, so the output is independent of them. -/
theorem demo_error_caught_logged_stops (predict : PredictResult)
    (pre : List String) (l e : String)
    (hpre : ∀ x ∈ pre, x.length = 0 ∨ ∃ t, predict x = Except.ok t)
    (hl : l.length ≠ 0) (he : predict l = Except.error e) :
    (∀ post, demoLines predict (pre ++ l :: post) = demoLines predict (pre ++ [l])) ∧
    ∃ out, demoLines predict (pre ++ [l]) = out ++ [l, "demo error", e] := by
  induction pre with
  | nil =>
    constructor
    · intro post
      simp only [List.nil_append]
      unfold demoLines
      simp [hl, he]
    · refine ⟨[], ?_⟩
      simp only [List.nil_append]
      unfold demoLines
      simp [hl, he]
  | cons x pre ih =>
    have hpre' : ∀ y ∈ pre, y.length = 0 ∨ ∃ t, predict y = Except.ok t :=
      fun y hy => hpre y (List.mem_cons_of_mem x hy)
    by_cases hx0 : x.length = 0
    · constructor
      · intro post
        simp only [List.cons_append]
        unfold demoLines
        simp only [hx0, if_pos rfl]
        exact (ih hpre').1 post
      · obtain ⟨out, hout⟩ := (ih hpre').2
        refine ⟨out, ?_⟩
        simp only [List.cons_append]
        unfold demoLines
        simp only [hx0, if_pos rfl]
        exact hout
    · obtain ⟨t, ht⟩ := (hpre x (List.mem_cons_self x pre)).resolve_left hx0
      constructor
      · intro post
        simp only [List.cons_append]
        unfold demoLines
        simp only [if_neg hx0, ht]
        rw [(ih hpre').1 post]
      · obtain ⟨out, hout⟩ := (ih hpre').2
        refine ⟨x :: t :: out, ?_⟩
        simp only [List.cons_append]
        unfold demoLines
        simp only [if_neg hx0, ht, hout]

/-- Witness for the amended C3: with the concrete demo predictor, the empty
line and the line "b" succeed, "a" fails, and the tail after "a" is ignored
while the error is logged. -/
theorem demo_error_caught_logged_stops_witness :
    (∀ post, demoLines demoPredictProbe (["", "b"] ++ "a" :: post)
      = demoLines demoPredictProbe (["", "b"] ++ ["a"])) ∧
    ∃ out, demoLines demoPredictProbe (["", "b"] ++ ["a"])
      = out ++ ["a", "demo error", "boom"] :=
  demo_error_caught_logged_stops demoPredictProbe ["", "b"] "a" "boom"
    (by
      intro x hx
      rcases List.mem_cons.mp hx with h | hx2
      · exact Or.inl (by rw [h]; rfl)
      · have h2 := List.mem_singleton.mp hx2
        exact Or.inr ⟨"ok:b", by rw [h2]; rfl⟩)
    (by decide) rfl

lemma lossMaskRow_sum (row : List ℕ) :
    (row.map lossMaskEntry).sum = ((row.countP (fun t => decide (t ≠ 0)) : ℕ) : ℚ) := by
  induction row with
  | nil => simp
  | cons t ts ih =>
    simp only [List.map_cons, List.sum_cons, List.countP_cons, ih, lossMaskEntry]
    by_cases h : t = 0
    · simp [h]
    · simp [h]
      ring

lemma lossMask_sum (real : List (List ℕ)) :
    sum2 (lossMask real)
      = (((real.map (fun row => row.countP (fun t => decide (t ≠ 0)))).sum : ℕ) : ℚ) := by
  induction real with
  | nil => simp [sum2, lossMask]
  | cons row rows ih =>
    simp only [lossMask, List.map_cons, sum2, List.sum_cons] at *
    rw [lossMaskRow_sum row, ih]
    push_cast
    ring

lemma zipWith_mul_zero_right (a b : List ℚ) (hb : ∀ x ∈ b, x = 0) :
    (a.zipWith (· * ·) b).sum = 0 := by
  induction a generalizing b with
  | nil => simp
  | cons x xs ih =>
    cases b with
    | nil => simp
    | cons y ys =>
      have hy : y = 0 := hb y (List.mem_cons_self y ys)
      simp only [List.zipWith_cons_cons, List.sum_cons, hy, mul_zero, zero_add]
      exact ih ys (fun z hz => hb z (List.mem_cons_of_mem y hz))

lemma mulElems_maskZero_sum :
    ∀ (a b : List (List ℚ)), (∀ mrow ∈ b, ∀ x ∈ mrow, x = 0) →
      sum2 (mulElems a b) = 0
  | [], _, _ => by simp [mulElems, sum2]
  | _ :: _, [], _ => by simp [mulElems, sum2]
  | x :: xs, y :: ys, hb => by
    have h1 := hb y (List.mem_cons_self y ys)
    have h2 := mulElems_maskZero_sum xs ys (fun m hm => hb m (List.mem_cons_of_mem y hm))
    unfold mulElems sum2 at h2 ⊢
    simp only [List.zip_cons_cons, List.map_cons, List.sum_cons]
    rw [zipWith_mul_zero_right x y h1, zero_add]
    exact h2

/-- C9: `loss_function` divides the summed masked per-token loss by the
mask sum with no guard: the denominator equals the number of non-pad
target positions, so it is positive exactly when the target batch has at
least one non-pad label; on an all-pad target both the numerator and the
denominator are 0, producing an unguarded 0/0 (NaN in the float semantics
of the source — rational division in this embedding).  Callers must supply
at least one non-pad target position. -/
theorem loss_function_unguarded_denominator (ce : ℕ → List ℚ → ℚ)
    (real : List (List ℕ)) (pred : List (List (List ℚ))) :
    (loss_function ce real pred
      = sum2 (mulElems (elementwiseLoss ce real pred) (lossMask real))
        / sum2 (lossMask real)) ∧
    (sum2 (lossMask real)
      = (((real.map (fun row => row.countP (fun t => decide (t ≠ 0)))).sum : ℕ) : ℚ)) ∧
    ((∃ row ∈ real, ∃ t ∈ row, t ≠ 0) → 0 < sum2 (lossMask real)) ∧
    ((∀ row ∈ real, ∀ t ∈ row, t = 0) →
      sum2 (lossMask real) = 0 ∧
      sum2 (mulElems (elementwiseLoss ce real pred) (lossMask real)) = 0) := by
  refine ⟨rfl, lossMask_sum real, ?_, ?_⟩
  · rintro ⟨row, hrow, t, ht, htne⟩
    rw [lossMask_sum real]
    have h1 : 0 < row.countP (fun t => decide (t ≠ 0)) := by
      rw [List.countP_pos_iff]
      exact ⟨t, ht, by simpa using htne⟩
    have h2 : 0 < (real.map (fun row => row.countP (fun t => decide (t ≠ 0)))).sum := by
      have hmem : row.countP (fun t => decide (t ≠ 0))
          ∈ real.map (fun row => row.countP (fun t => decide (t ≠ 0))) :=
        List.mem_map_of_mem _ hrow
      calc 0 < row.countP (fun t => decide (t ≠ 0)) := h1
        _ ≤ _ := List.single_le_sum (fun _ _ => Nat.zero_le _) _ hmem
    exact_mod_cast h2
  · intro hall
    have hmask : ∀ mrow ∈ lossMask real, ∀ x ∈ mrow, x = 0 := by
      intro mrow hm x hx
      simp only [lossMask, List.mem_map] at hm
      obtain ⟨row, hrow, hmr⟩ := hm
      subst hmr
      simp only [List.mem_map] at hx
      obtain ⟨t, ht, hxe⟩ := hx
      subst hxe
      simp [lossMaskEntry, hall row hrow t ht]
    constructor
    · have hz : (real.map (fun row => row.countP (fun t => decide (t ≠ 0)))).sum = 0 := by
        apply List.sum_eq_zero
        intro c hc
        simp only [List.mem_map] at hc
        obtain ⟨row, hrow, hce⟩ := hc
        subst hce
        simp only [List.countP_eq_zero]
        intro t ht
        simpa using hall row hrow t ht
      rw [lossMask_sum real, hz]
      simp
    · exact mulElems_maskZero_sum _ _ hmask

/-- Witness for C9: a target with one non-pad label has positive
denominator; an all-pad target has numerator and denominator 0. -/
theorem loss_function_unguarded_denominator_witness :
    (0 : ℚ) < sum2 (lossMask [[1, 0]]) ∧
    (sum2 (lossMask [[0, 0]]) = 0 ∧
      sum2 (mulElems (elementwiseLoss ceProbe [[0, 0]] predProbe) (lossMask [[0, 0]])) = 0) :=
  ⟨(loss_function_unguarded_denominator ceProbe [[1, 0]] predProbe).2.2.1
      ⟨[1, 0], by decide, 1, by decide, by decide⟩,
    (loss_function_unguarded_denominator ceProbe [[0, 0]] predProbe).2.2.2
      (by decide)⟩

lemma rowMasked_set (ce : ℕ → List ℚ → ℚ) :
    ∀ (rrow : List ℕ) (prow : List (List ℚ)) (c : ℕ) (w : List ℚ),
      rrow.getD c 1 = 0 →
      ((rrow.zip (prow.set c w)).map (fun lp => ce lp.1 lp.2)).zipWith (· * ·)
          (rrow.map lossMaskEntry)
        = ((rrow.zip prow).map (fun lp => ce lp.1 lp.2)).zipWith (· * ·)
          (rrow.map lossMaskEntry)
  | [], _, _, _, h => by simp at h
  | _ :: _, [], _, _, _ => by simp
  | t :: ts, p :: ps, 0, w, h => by
    have ht : t = 0 := by simpa using h
    simp [ht, List.set_cons_zero, List.zip_cons_cons, List.map_cons,
      List.zipWith_cons_cons, lossMaskEntry]
  | t :: ts, p :: ps, c + 1, w, h => by
    have h' : ts.getD c 1 = 0 := by simpa using h
    simp only [List.set_cons_succ, List.zip_cons_cons, List.map_cons,
      List.zipWith_cons_cons]
    rw [rowMasked_set ce ts ps c w h']

lemma mulElems_set (ce : ℕ → List ℚ → ℚ) :
    ∀ (real : List (List ℕ)) (pred : List (List (List ℚ))) (r c : ℕ) (w : List ℚ),
      (real.getD r []).getD c 1 = 0 →
      mulElems (elementwiseLoss ce real (pred.set r ((pred.getD r []).set c w)))
          (lossMask real)
        = mulElems (elementwiseLoss ce real pred) (lossMask real)
  | [], _, _, _, _, h => by simp at h
  | _ :: _, [], _, _, _, _ => by simp [elementwiseLoss, mulElems]
  | rrow :: rs, prow :: ps, 0, c, w, h => by
    have h' : rrow.getD c 1 = 0 := by simpa using h
    simp only [List.getD_cons_zero, List.set_cons_zero, elementwiseLoss, lossMask,
      mulElems, List.zip_cons_cons, List.map_cons]
    rw [rowMasked_set ce rrow prow c w h']
  | rrow :: rs, prow :: ps, r + 1, c, w, h => by
    have h' : (rs.getD r []).getD c 1 = 0 := by simpa using h
    simp only [List.getD_cons_succ, List.set_cons_succ, elementwiseLoss, lossMask,
      mulElems, List.zip_cons_cons, List.map_cons]
    have hrec := mulElems_set ce rs ps r c w h'
    simp only [elementwiseLoss, lossMask, mulElems] at hrec
    rw [hrec]

/-- Counterexample to C2 as stated: the not-pad mask of `loss_function` is
computed from the labels themselves, so replacing the pad label at position
(0, 1) of the target `[[1, 0]]` with the id 1 changes both the mask and the
denominator, and the loss changes from 2 to 11/2 under the concrete kernel
`ceProbe`. -/
theorem loss_pad_label_not_invariant_counterexample :
    (([[1, 0]] : List (List ℕ)).getD 0 []).getD 1 1 = 0 ∧
    ([[1, 0]] : List (List ℕ)).set 0 ((([[1, 0]] : List (List ℕ)).getD 0 []).set 1 1)
      = [[1, 1]] ∧
    loss_function ceProbe [[1, 0]] [[[0, 2], [5, 9]]] = 2 ∧
    loss_function ceProbe [[1, 1]] [[[0, 2], [5, 9]]] = 11 / 2 ∧
    loss_function ceProbe [[1, 0]] [[[0, 2], [5, 9]]]
      ≠ loss_function ceProbe [[1, 1]] [[[0, 2], [5, 9]]] := by
  have h1 : loss_function ceProbe [[1, 0]] [[[0, 2], [5, 9]]] = 2 := by
    norm_num [loss_function, sum2, mulElems, elementwiseLoss, lossMask, lossMaskEntry,
      ceProbe]
  have h2 : loss_function ceProbe [[1, 1]] [[[0, 2], [5, 9]]] = 11 / 2 := by
    norm_num [loss_function, sum2, mulElems, elementwiseLoss, lossMask, lossMaskEntry,
      ceProbe]
  refine ⟨by decide, by decide, h1, h2, ?_⟩
  rw [h1, h2]
  norm_num

/-- C2 amended: the masked loss is invariant to the *prediction* content at
pad positions of the target — replacing the logit vector at any position
whose label is the pad id 0 leaves `loss_function` unchanged (the per-token
loss there is multiplied by mask 0 and the mask sum only depends on the
labels).  Invariance to the *label* content at pad positions fails, since
the mask is recomputed from the labels. -/
theorem loss_function_pad_pred_invariant (ce : ℕ → List ℚ → ℚ)
    (real : List (List ℕ)) (pred : List (List (List ℚ))) (r c : ℕ) (w : List ℚ)
    (h : (real.getD r []).getD c 1 = 0) :
    loss_function ce real (pred.set r ((pred.getD r []).set c w))
      = loss_function ce real pred := by
  unfold loss_function
  rw [mulElems_set ce real pred r c w h]

/-- Witness for the amended C2 at a concrete pad position and replacement. -/
theorem loss_function_pad_pred_invariant_witness :
    loss_function ceProbe [[1, 0]]
        (predProbe.set 0 ((predProbe.getD 0 []).set 1 [1, 2, 3]))
      = loss_function ceProbe [[1, 0]] predProbe :=
  loss_function_pad_pred_invariant ceProbe [[1, 0]] predProbe 0 1 [1, 2, 3] (by decide)

lemma sum_indicator_eq_countP (l : List (ℕ × List ℚ)) :
    (l.map (fun lp => if argmax lp.2 = lp.1 then (1 : ℚ) else 0)).sum
      = ((l.countP (fun lp => decide (argmax lp.2 = lp.1)) : ℕ) : ℚ) := by
  induction l with
  | nil => simp
  | cons x xs ih =>
    simp only [List.map_cons, List.sum_cons, List.countP_cons, ih]
    by_cases h : argmax x.2 = x.1
    · simp only [h, if_pos rfl, decide_True, if_true]
      push_cast
      ring
    · simp [h]

lemma scaMatchValues_eq_map_flatten (real : List (List ℕ)) (pred : List (List (List ℚ))) :
    scaMatchValues real pred
      = (((real.zip pred).map (fun rp => rp.1.zip rp.2)).flatten).map
          (fun lp => if argmax lp.2 = lp.1 then (1 : ℚ) else 0) := by
  unfold scaMatchValues
  rw [List.map_flatten, List.map_map]
  rfl

/-- Counterexample to C1 as stated: on the target batch `[[5, 0]]` (one
real token with label 5 predicted correctly, one pad position whose argmax
is 7) the metric the code updates — a plain `SparseCategoricalAccuracy`
with no mask — yields 1/2, while the accuracy the spec describes (non-pad
positions only) is 1: the pad position contributes to the code metric. -/
theorem accuracy_counts_pad_positions_counterexample :
    (scaUpdate MeanState.init [[5, 0]] predProbe).result = 1 / 2 ∧
    specMaskedAccuracy [[5, 0]] predProbe = 1 ∧
    (scaUpdate MeanState.init [[5, 0]] predProbe).result
      ≠ specMaskedAccuracy [[5, 0]] predProbe ∧
    (train_step (fun _ _ _ => predProbe) ceProbe ⟨MeanState.init, MeanState.init⟩
        [[1]] [[9, 5, 0]]).train_accuracy.result = 1 / 2 := by
  have hmv : scaMatchValues [[5, 0]] predProbe = [1, 0] := by
    norm_num [scaMatchValues, predProbe, argmax, argmaxAux]
  have h1 : (scaUpdate MeanState.init [[5, 0]] predProbe).result = 1 / 2 := by
    rw [show (scaUpdate MeanState.init [[5, 0]] predProbe).result
        = (0 + (scaMatchValues [[5, 0]] predProbe).sum)
          / (0 + ((scaMatchValues [[5, 0]] predProbe).length : ℚ)) from rfl]
    rw [hmv]
    norm_num
  have h2 : specMaskedAccuracy [[5, 0]] predProbe = 1 := by
    norm_num [specMaskedAccuracy, predProbe, argmax, argmaxAux]
  have h4 : (train_step (fun _ _ _ => predProbe) ceProbe ⟨MeanState.init, MeanState.init⟩
      [[1]] [[9, 5, 0]]).train_accuracy.result = 1 / 2 := by
    rw [show (train_step (fun _ _ _ => predProbe) ceProbe ⟨MeanState.init, MeanState.init⟩
        [[1]] [[9, 5, 0]]).train_accuracy
      = scaUpdate MeanState.init [[5, 0]] predProbe from rfl]
    exact h1
  refine ⟨h1, h2, ?_, h4⟩
  rw [h1, h2]
  norm_num

/-- C1 amended: the accuracy metric updated by `train_step` (and the
identically constructed one in `evaluate`) is an unmasked
`SparseCategoricalAccuracy`: from a fresh state it equals the fraction of
**all** target positions — pad positions included — whose argmax prediction
matches the label; a pad position counts in the denominator and counts as
correct whenever the argmax there is 0. -/
theorem accuracy_is_fraction_over_all_positions (real : List (List ℕ))
    (pred : List (List (List ℚ))) (model : Model) (ce : ℕ → List ℚ → ℚ)
    (accSt lossSt : MeanState) (inp tar : List (List ℕ)) :
    ((scaUpdate MeanState.init real pred).result
      = ((((real.zip pred).map (fun rp => rp.1.zip rp.2)).flatten.countP
            (fun lp => decide (argmax lp.2 = lp.1)) : ℕ) : ℚ)
        / ((((real.zip pred).map (fun rp => rp.1.zip rp.2)).flatten.length : ℕ) : ℚ)) ∧
    ((train_step model ce ⟨lossSt, accSt⟩ inp tar).train_accuracy
      = scaUpdate accSt (tar.map (List.drop 1))
          (model inp (tar.map List.dropLast) (create_masks inp (tar.map List.dropLast)))) := by
  constructor
  · rw [show (scaUpdate MeanState.init real pred).result
        = (0 + (scaMatchValues real pred).sum)
          / (0 + ((scaMatchValues real pred).length : ℚ)) from rfl]
    rw [scaMatchValues_eq_map_flatten real pred, sum_indicator_eq_countP, List.length_map]
    norm_num
  · rfl

/-- C10: `evaluate` builds and resets its own local loss/accuracy metrics,
so its returned (loss, accuracy) pair depends only on the input/target
arrays of the call — not on the module-level trackers — and the
module-level `train_loss` / `train_accuracy` state used by `train_step`
passes through `evaluate` unchanged. -/
theorem evaluate_local_metrics_frame (model : Model) (ce : ℕ → List ℚ → ℚ)
    (batchSize : ℕ) (g g' : Globals) (inp tar : List (List ℕ)) :
    (evaluate model ce batchSize g inp tar).2 = g ∧
    (evaluate model ce batchSize g inp tar).1 = (evaluate model ce batchSize g' inp tar).1 :=
  ⟨rfl, rfl⟩

/-- C8: in `DecoderLayer.call`, the second (cross-attention) block calls
`self.mha2(enc_output, enc_output, out1, padding_mask)`; in
`MultiHeadAttention.call`'s positional order `(v, k, q, mask)` this binds
q = out1 (the output of the masked self-attention block) and
k = v = enc_output, masked by the encoder-input padding mask.
Consequently, under the shape semantics the block-2 attention weights have
query length equal to the decoder sequence length `t` and key length equal
to the encoder sequence length `s` — shape (batch, heads, t, s) — and the
layer output keeps shape (batch, t, d_model). -/
theorem decoder_cross_attention_queries_from_out1 (x enc la pm : TExpr)
    (batch t s d h : ℕ) (hd : h ∣ d) (hh : 0 < h) :
    (∃ out1, out1 = TExpr.layernorm 1 (TExpr.add (TExpr.dropout 1
        (TExpr.mhaOut 1 x x x la)) x) ∧
      (decoderLayerCall x enc la pm).2.2 = TExpr.mhaWeights 2 enc enc out1 pm ∧
      (decoderLayerCall x enc la pm).2.1 = TExpr.mhaWeights 1 x x x la ∧
      (decoderLayerCall x enc la pm).1
        = (let out2 := TExpr.layernorm 2 (TExpr.add (TExpr.dropout 2
            (TExpr.mhaOut 2 enc enc out1 pm)) out1)
           TExpr.layernorm 3 (TExpr.add (TExpr.dropout 3 (TExpr.ffn out2)) out2))) ∧
    (shapeSem (fun v => if v = 0 then some [batch, t, d]
        else if v = 1 then some [batch, s, d] else none) h
        (decoderLayerCall (.var 0) (.var 1) (.var 2) (.var 3)).1 = some [batch, t, d] ∧
      shapeSem (fun v => if v = 0 then some [batch, t, d]
        else if v = 1 then some [batch, s, d] else none) h
        (decoderLayerCall (.var 0) (.var 1) (.var 2) (.var 3)).2.2
        = some [batch, h, t, s]) := by
  refine ⟨⟨_, rfl, rfl, rfl, rfl⟩, ?_, ?_⟩
  · simp [decoderLayerCall, shapeSem, hd, hh]
  · simp [decoderLayerCall, shapeSem, hd, hh]

/-- Witness for C8 at concrete expressions and shapes (batch 1, decoder
length 2, encoder length 3, width 4, 2 heads). -/
theorem decoder_cross_attention_queries_from_out1_witness :
    ((∃ out1, out1 = TExpr.layernorm 1 (TExpr.add (TExpr.dropout 1
        (TExpr.mhaOut 1 (.var 0) (.var 0) (.var 0) (.var 2))) (.var 0)) ∧
      (decoderLayerCall (.var 0) (.var 1) (.var 2) (.var 3)).2.2
        = TExpr.mhaWeights 2 (.var 1) (.var 1) out1 (.var 3) ∧
      (decoderLayerCall (.var 0) (.var 1) (.var 2) (.var 3)).2.1
        = TExpr.mhaWeights 1 (.var 0) (.var 0) (.var 0) (.var 2) ∧
      (decoderLayerCall (.var 0) (.var 1) (.var 2) (.var 3)).1
        = (let out2 := TExpr.layernorm 2 (TExpr.add (TExpr.dropout 2
            (TExpr.mhaOut 2 (.var 1) (.var 1) out1 (.var 3))) out1)
           TExpr.layernorm 3 (TExpr.add (TExpr.dropout 3 (TExpr.ffn out2)) out2))) ∧
    (shapeSem (fun v => if v = 0 then some [1, 2, 4]
        else if v = 1 then some [1, 3, 4] else none) 2
        (decoderLayerCall (.var 0) (.var 1) (.var 2) (.var 3)).1 = some [1, 2, 4] ∧
      shapeSem (fun v => if v = 0 then some [1, 2, 4]
        else if v = 1 then some [1, 3, 4] else none) 2
        (decoderLayerCall (.var 0) (.var 1) (.var 2) (.var 3)).2.2
        = some [1, 2, 2, 3])) :=
  decoder_cross_attention_queries_from_out1 (.var 0) (.var 1) (.var 2) (.var 3)
    1 2 3 4 2 (by decide) (by decide)

end KoreanPolisher
